import Mathlib

/-!
# Verification of the table-reader-bank extraction pipeline

Shallow embedding of the core extraction-and-classification pipeline:
`src/utils/data_cleaning.py`, `src/utils/ocr.py` (sign detection) and
`src/utils/extraction.py` (row assembly, continuation stitching and the
per-table processing step of `process_pdf`).

Strings are modelled as `List Char` where convenient, wrapped in `String`
at the boundaries.  Python regular expressions are modelled by explicit
left-to-right scanning functions that reproduce the exact matching
behaviour of the patterns used in the source (leftmost match, greedy
quantifiers, ASCII-case-insensitive letters, word boundaries).  Pixel
intensities are natural numbers; the float comparisons of the source
(`int(w * 0.20)`, `coverage < 0.40`) are modelled by the exact rational
computations they agree with on every feasible input.
-/

/-- Python whitespace recognised by `str.split()` / `str.strip()`
(the ASCII whitespace characters). -/
def isPyWs (c : Char) : Bool :=
  c = ' ' || c = '\t' || c = '\n' || c = '\r' || c = '\x0b' || c = '\x0c'

/-- Python `str.strip()`: drop leading and trailing whitespace. -/
def pyStrip (l : List Char) : List Char :=
  ((l.dropWhile isPyWs).reverse.dropWhile isPyWs).reverse

/-- Helper of `pySplit`: accumulate the current word (reversed). -/
def pySplitAux : List Char → List Char → List (List Char)
  | cur, [] => if cur.isEmpty then [] else [cur.reverse]
  | cur, c :: rest =>
    if isPyWs c then
      if cur.isEmpty then pySplitAux [] rest
      else cur.reverse :: pySplitAux [] rest
    else pySplitAux (c :: cur) rest

/-- Python `str.split()` with no argument: split on whitespace runs,
dropping empty pieces. -/
def pySplit (l : List Char) : List (List Char) :=
  pySplitAux [] l

/-- Python `str.lower()` restricted to the characters this pipeline
meets: ASCII letters and the Spanish accented letters appearing in the
keyword lists. -/
def pyLowerChar (c : Char) : Char :=
  if c = 'Á' then 'á'
  else if c = 'É' then 'é'
  else if c = 'Í' then 'í'
  else if c = 'Ó' then 'ó'
  else if c = 'Ú' then 'ú'
  else if c = 'Ñ' then 'ñ'
  else c.toLower

/-- Python `str.upper()` restricted to the characters this pipeline
meets: ASCII letters and the Spanish accented letters. -/
def pyUpperChar (c : Char) : Char :=
  if c = 'á' then 'Á'
  else if c = 'é' then 'É'
  else if c = 'í' then 'Í'
  else if c = 'ó' then 'Ó'
  else if c = 'ú' then 'Ú'
  else if c = 'ñ' then 'Ñ'
  else c.toUpper

/-- Helper of `pyContains`: does `needle` start at some position of the
haystack? -/
def pyContainsAux (needle : List Char) : List Char → Bool
  | [] => needle.isEmpty
  | c :: t => needle.isPrefixOf (c :: t) || pyContainsAux needle t

/-- Python substring containment `needle in hay`. -/
def pyContains (hay needle : List Char) : Bool :=
  pyContainsAux needle hay

/-- A word character for the purposes of the regex `\b` boundaries of
`clean_date` (Python `\w`): ASCII letters, digits, underscore and the
accented Spanish letters. -/
def isWordChar (c : Char) : Bool :=
  c.isAlpha || c.isDigit || c = '_' ||
    c = 'á' || c = 'é' || c = 'í' || c = 'ó' || c = 'ú' || c = 'ñ' ||
    c = 'Á' || c = 'É' || c = 'Í' || c = 'Ó' || c = 'Ú' || c = 'Ñ'

/-- Python `str.capitalize()`: first character uppercased, the rest
lowercased (ASCII; the month abbreviations are ASCII). -/
def pyCapitalize : List Char → List Char
  | [] => []
  | c :: rest => c.toUpper :: rest.map Char.toLower

/- ## data_cleaning.py -/

/-- `classify_table(header_text)`: category and card type from the
accumulated (merged) header text, by case-folded marker containment. -/
def classify_table (header_text : String) : String × String :=
  let upper := header_text.data.map pyUpperChar
  let category :=
    if pyContains upper "MESES SIN INTERESES".data || pyContains upper "DIFERIDOS".data then
      "msi"
    else if pyContains upper "NO A MESES".data || pyContains upper "REGULARES".data then
      "regular"
    else
      "unknown"
  let card_type := if pyContains upper "ADICIONAL".data then "adicional" else "titular"
  (category, card_type)

/-- The optional `\.?\d*` tail of the numeric-token pattern
`-?[\d]+\.?\d*` of `clean_amount`: a dot, when present, takes the
following run of digits greedily. -/
def dotPart : List Char → List Char
  | '.' :: r => '.' :: r.takeWhile Char.isDigit
  | _ => []

/-- Match the pattern `-?[\d]+\.?\d*` anchored at the head of `l`
(Python regex semantics: optional minus, then one or more digits taken
greedily, then an optional dot with a greedy run of digits). -/
def matchNumAt (l : List Char) : Option (List Char) :=
  match l with
  | '-' :: rest =>
    if (rest.takeWhile Char.isDigit).isEmpty then none
    else some ('-' :: (rest.takeWhile Char.isDigit ++ dotPart (rest.dropWhile Char.isDigit)))
  | _ =>
    if (l.takeWhile Char.isDigit).isEmpty then none
    else some (l.takeWhile Char.isDigit ++ dotPart (l.dropWhile Char.isDigit))

/-- `re.search(r"-?[\d]+\.?\d*", l)`: leftmost match of the numeric
token pattern. -/
def searchNum : List Char → Option (List Char)
  | [] => none
  | c :: rest =>
    match matchNumAt (c :: rest) with
    | some t => some t
    | none => searchNum rest

/-- The sanitising prelude of `clean_amount`: remove `$`, commas and
spaces, strip, then map the OCR-confused letters `O`/`o` to `0`. -/
def amountSanitized (raw : String) : List Char :=
  let cleaned := pyStrip (raw.data.filter (fun c => !(c = '$' || c = ',' || c = ' ')))
  cleaned.map (fun c => if c = 'O' || c = 'o' then '0' else c)

/-- `clean_amount(raw)`: sanitize, then return the first numeric token,
falling back to the sanitized string when none matches. -/
def clean_amount (raw : String) : String :=
  if raw = "" then ""
  else
    match searchNum (amountSanitized raw) with
    | some t => t.asString
    | none => (amountSanitized raw).asString

/-- Spec-side grammar of a signed-decimal numeric token (an optional
minus, one or more digits, optionally a dot followed by digits only):
the language of `-?[\d]+\.?\d*` matched to the end. -/
def isNumCore (l : List Char) : Bool :=
  !(l.takeWhile Char.isDigit).isEmpty &&
    (match l.dropWhile Char.isDigit with
     | [] => true
     | '.' :: r => r.all Char.isDigit
     | _ => false)

/-- Spec-side: `l` is a signed-decimal numeric token. -/
def isNumToken (l : List Char) : Bool :=
  match l with
  | '-' :: rest => isNumCore rest
  | _ => isNumCore l

/-- `_sanitize_ocr(raw)`: border-bleed characters (`[`, `]`, `|`, `\`)
become spaces, whitespace runs collapse to single spaces, ends
stripped. -/
def sanitize_ocr (raw : List Char) : List Char :=
  let cleaned := raw.map (fun c => if c = '[' || c = ']' || c = '|' || c = '\\' then ' ' else c)
  pyStrip (List.intercalate [' '] (pySplit cleaned))

/-- The 12 Spanish month abbreviations of `_MONTHS`, lowercased. -/
def monthTriples : List (Char × Char × Char) :=
  [('e','n','e'), ('f','e','b'), ('m','a','r'), ('a','b','r'),
   ('m','a','y'), ('j','u','n'), ('j','u','l'), ('a','g','o'),
   ('s','e','p'), ('o','c','t'), ('n','o','v'), ('d','i','c')]

/-- The three characters `a b c` match one of the month abbreviations
case-insensitively (the `_MONTHS` alternation under `re.IGNORECASE`). -/
def isMonth3 (a b c : Char) : Bool :=
  monthTriples.any (fun t => a.toLower = t.1 && b.toLower = t.2.1 && c.toLower = t.2.2)

/-- Scanner of `re.sub(r"\b(\d)f(-_MONTHS)", r"\g<1>7\2", ·, IGNORECASE)`:
left-to-right non-overlapping scan; `prevWord` tracks whether the
previous character is a word character (for the `\b` boundary).
`IGNORECASE` makes the literal `f` also match `F`.  The `fuel`
argument only drives structural recursion: every step consumes at
least one character, so any fuel at least the list length yields the
full scan. -/
def subDayFGo : Bool → List Char → Nat → List Char
  | _, l, 0 => l
  | _, [], _ => []
  | prevWord, c :: rest, fuel + 1 =>
    match rest with
    | f :: d :: m1 :: m2 :: m3 :: tail =>
      if !prevWord && c.isDigit && (f = 'f' || f = 'F') && d = '-' && isMonth3 m1 m2 m3 then
        c :: '7' :: '-' :: m1 :: m2 :: m3 :: subDayFGo (isWordChar m3) tail fuel
      else
        c :: subDayFGo (isWordChar c) rest fuel
    | _ => c :: subDayFGo (isWordChar c) rest fuel

/-- `re.sub(r"\b(\d)f(-_MONTHS)", r"\g<1>7\2", ·, IGNORECASE)`. -/
def subDayF (prevWord : Bool) (l : List Char) : List Char :=
  subDayFGo prevWord l l.length

/-- Scanner of the `/` variant; see `subDayFGo`. -/
def subDaySlashGo : Bool → List Char → Nat → List Char
  | _, l, 0 => l
  | _, [], _ => []
  | prevWord, c :: rest, fuel + 1 =>
    match rest with
    | f :: d :: m1 :: m2 :: m3 :: tail =>
      if !prevWord && c.isDigit && f = '/' && d = '-' && isMonth3 m1 m2 m3 then
        c :: '7' :: '-' :: m1 :: m2 :: m3 :: subDaySlashGo (isWordChar m3) tail fuel
      else
        c :: subDaySlashGo (isWordChar c) rest fuel
    | _ => c :: subDaySlashGo (isWordChar c) rest fuel

/-- `re.sub(r"\b(\d)/(-_MONTHS)", r"\g<1>7\2", ·, IGNORECASE)`: the
same correction with `/` in place of `f`. -/
def subDaySlash (prevWord : Bool) (l : List Char) : List Char :=
  subDaySlashGo prevWord l l.length

/-- Scanner of the three-digit-day correction; see `subDayFGo`. -/
def subDay3Go : Bool → List Char → Nat → List Char
  | _, l, 0 => l
  | _, [], _ => []
  | prevWord, c :: rest, fuel + 1 =>
    match rest with
    | d2 :: d3 :: h :: m1 :: m2 :: m3 :: tail =>
      if !prevWord && c.isDigit && d2.isDigit && d3.isDigit && h = '-' && isMonth3 m1 m2 m3 then
        c :: d2 :: '-' :: m1 :: m2 :: m3 :: subDay3Go (isWordChar m3) tail fuel
      else
        c :: subDay3Go (isWordChar c) rest fuel
    | _ => c :: subDay3Go (isWordChar c) rest fuel

/-- `re.sub(r"\b(\d{2})\d(-_MONTHS)", r"\1\2", ·, IGNORECASE)`: a
three-digit day before `-Month` keeps its first two digits. -/
def subDay3 (prevWord : Bool) (l : List Char) : List Char :=
  subDay3Go prevWord l l.length

/-- Continue a date match after the day digits: `-(_MONTHS)-(\d{4})`,
returning (month as matched, year). -/
def matchMonthYear (l : List Char) : Option (List Char × List Char) :=
  match l with
  | '-' :: m1 :: m2 :: m3 :: '-' :: y1 :: y2 :: y3 :: y4 :: _ =>
    if isMonth3 m1 m2 m3 && y1.isDigit && y2.isDigit && y3.isDigit && y4.isDigit then
      some ([m1, m2, m3], [y1, y2, y3, y4])
    else none
  | _ => none

/-- Match `(\d{1,2})-(_MONTHS)-(\d{4})` anchored at the head: the
greedy day tries two digits first, then one. Returns (day, month,
year). -/
def matchFullAt (l : List Char) : Option (List Char × List Char × List Char) :=
  match l with
  | a :: b :: rest =>
    match (if a.isDigit && b.isDigit then matchMonthYear rest else none) with
    | some p => some ([a, b], p.1, p.2)
    | none =>
      if a.isDigit then (matchMonthYear (b :: rest)).map (fun p => ([a], p.1, p.2))
      else none
  | _ => none

/-- `re.search` of the full date pattern: leftmost position wins. -/
def searchFull : List Char → Option (List Char × List Char × List Char)
  | [] => none
  | c :: rest =>
    match matchFullAt (c :: rest) with
    | some m => some m
    | none => searchFull rest

/-- Continue a fallback date match after the day digits:
`-(_MONTHS)`. -/
def matchMonthOnly (l : List Char) : Option (List Char) :=
  match l with
  | '-' :: m1 :: m2 :: m3 :: _ =>
    if isMonth3 m1 m2 m3 then some [m1, m2, m3] else none
  | _ => none

/-- Match `(\d{1,2})-(_MONTHS)` anchored at the head (greedy day). -/
def matchDMAt (l : List Char) : Option (List Char × List Char) :=
  match l with
  | a :: b :: rest =>
    match (if a.isDigit && b.isDigit then matchMonthOnly rest else none) with
    | some m => some ([a, b], m)
    | none =>
      if a.isDigit then (matchMonthOnly (b :: rest)).map (fun m => ([a], m))
      else none
  | _ => none

/-- `re.search` of the day-month fallback pattern. -/
def searchDM : List Char → Option (List Char × List Char)
  | [] => none
  | c :: rest =>
    match matchDMAt (c :: rest) with
    | some m => some m
    | none => searchDM rest

/-- The corrected text of `clean_date`: sanitize, then the three OCR
corrections in source order (`f` misread, `/` misread, extra trailing
day digit). -/
def dateCorrected (raw : String) : List Char :=
  subDay3 false (subDaySlash false (subDayF false (sanitize_ocr raw.data)))

/-- `clean_date(raw)`: corrections, then the full `DD-Month-YYYY`
extraction (zero-padding a single day digit and capitalizing the
month), then the day-month fallback (capitalizing the month), then the
sanitized text verbatim. -/
def clean_date (raw : String) : String :=
  if raw = "" then ""
  else
    match searchFull (dateCorrected raw) with
    | some (day, month, year) =>
      ((if day.length = 1 then '0' :: day else day) ++
        '-' :: (pyCapitalize month ++ '-' :: year)).asString
    | none =>
      match searchDM (dateCorrected raw) with
      | some (day, month) => (day ++ '-' :: pyCapitalize month).asString
      | none => (dateCorrected raw).asString

/-- The joined, lowercased text `" ".join(str(x).lower() for x in
row_data)` used by the row filters. -/
def joinedLower (row_data : List String) : List Char :=
  List.intercalate [' '] (row_data.map (fun s => s.data.map pyLowerChar))

/-- The header keyword list of `is_header_row`. -/
def header_keywords : List String :=
  ["fecha", "descripción", "monto", "saldo", "pago",
   "movimiento", "tasa", "interés", "cargo"]

/-- `is_header_row(row_data)`: at least 2 header keywords occur in the
joined lowercased row text. -/
def is_header_row (row_data : List String) : Bool :=
  2 ≤ (header_keywords.countP (fun kw => pyContains (joinedLower row_data) kw.data))

/-- `is_total_row(row_data)`: the joined lowercased row text contains
one of the total markers. -/
def is_total_row (row_data : List String) : Bool :=
  ["total cargos", "total abonos", "total"].any
    (fun kw => pyContains (joinedLower row_data) kw.data)

/- ## ocr.py — SignDetector -/

/-- Height of a grayscale bitmap given as a list of pixel rows. -/
def gridH (g : List (List Nat)) : Nat := g.length

/-- Width of a grayscale bitmap (the length of its first row; the
theorems assume rectangular grids). -/
def gridW (g : List (List Nat)) : Nat := (g.headD []).length

/-- The inner-60% crop of `detect_sign_cell`:
`gray.crop((margin_x, margin_y, w - margin_x, h - margin_y))` with
`margin = int(size * 0.20)`.  For every machine integer size,
`int(size * 0.20)` equals `size / 5` in exact arithmetic (the float
product never crosses an integer boundary), so the margins are
modelled as `size / 5`. -/
def innerCrop (g : List (List Nat)) : List (List Nat) :=
  ((g.drop (gridH g / 5)).take (gridH g - 2 * (gridH g / 5))).map
    (fun row => (row.drop (gridW g / 5)).take (gridW g - 2 * (gridW g / 5)))

/-- `dark_mask.sum()`: the number of pixels with intensity strictly
below 100. -/
def darkCount (g : List (List Nat)) : Nat :=
  (g.map (fun row => row.countP (fun p => decide (p < 100)))).sum

/-- `dark_mask.any(axis=1).sum()`: the number of rows containing at
least one dark pixel. -/
def darkRowCount (g : List (List Nat)) : Nat :=
  g.countP (fun row => row.any (fun p => decide (p < 100)))

/-- `detect_sign_cell`, modelled from the grayscale cell crop (the
zero-padding crop and the `convert("L")` of the source are the image
library's work; `g` is their result).  The float comparison
`vertical_coverage = dark_row_count / ih < 0.40` agrees with the
exact comparison `5 * dark_row_count < 2 * ih` on every feasible
(count, height) pair — the two sides can only disagree when
`dark_row_count / ih` lies within one double ulp of `0.4`, which
needs `ih` beyond `10^16` — and is modelled by it; the theorems state
the rational-division form. -/
def detect_sign_cell (g : List (List Nat)) : String :=
  if gridW g < 6 ∨ gridH g < 6 then "+"
  else if gridW (innerCrop g) < 3 ∨ gridH (innerCrop g) < 3 then "+"
  else if darkCount (innerCrop g) < 2 then "+"
  else if 5 * darkRowCount (innerCrop g) < 2 * gridH (innerCrop g) then "-"
  else "+"

/- ## extraction.py -/

/-- A cell bounding box in PDF point units (`(x0, top, x1, bottom)`).
The coordinates are modelled as integers; the pipeline only ever
compares coordinate differences against integer thresholds, and the
comparisons behave identically on the fractional coordinates the
table locator can produce. -/
structure Cell where
  x0 : Int
  top : Int
  x1 : Int
  bottom : Int
deriving DecidableEq

/-- `cell[2] - cell[0]`: the cell's width in point units. -/
def Cell.width (c : Cell) : Int := c.x1 - c.x0

/-- The external OCR collaborators applied to the fixed rendered page
image: `ocr_cell f = ocr_cell(page_img, f)`, `ocr_region f =
ocr_region(page_img, f)` and `detect_sign f = detect_sign_cell(page_img, f)`.
The pipeline treats all three as total, never-raising functions. -/
structure OcrEnv where
  ocr_cell : Cell → String
  ocr_region : Cell → String
  detect_sign : Cell → String

/-- One cell's text in the data-row loop of `extract_table_data`:
`None` cells contribute `""`; a narrow cell (width < 20) of a
non-MSI (regular) table goes to the sign detector, every other cell
to single-line OCR. -/
def cell_text (env : OcrEnv) (is_msi : Bool) : Option Cell → String
  | none => ""
  | some cell =>
    if is_msi = false ∧ cell.width < 20 then env.detect_sign cell
    else env.ocr_cell cell

/-- One cell's text in `extract_continuation_table`: the width test
alone decides, with no category guard. -/
def cont_cell_text (env : OcrEnv) : Option Cell → String
  | none => ""
  | some cell =>
    if cell.width < 20 then env.detect_sign cell
    else env.ocr_cell cell

/-- The number of non-null cells of a row. -/
def nonNoneCount (row : List (Option Cell)) : Nat :=
  (row.filterMap id).length

/-- The column-count normalisation at the end of the data-row loop:
pad with empty strings up to `expected`, then truncate to
`expected`. -/
def normalizeCols (expected : Nat) (row_data : List String) : List String :=
  (row_data ++ List.replicate (expected - row_data.length) "").take expected

/-- The body of the data-row loop of `extract_table_data` for one row:
`none` when the row is discarded (fewer than 3 non-null cells, header
row, total row, or all fields empty), otherwise the normalised row. -/
def assemble_data_row (env : OcrEnv) (is_msi : Bool) (expected : Nat)
    (row : List (Option Cell)) : Option (List String) :=
  if nonNoneCount row < 3 then none
  else if is_header_row (row.map (cell_text env is_msi)) ||
      is_total_row (row.map (cell_text env is_msi)) then none
  else if (row.map (cell_text env is_msi)).all (fun s => decide (s = "")) then none
  else some (normalizeCols expected (row.map (cell_text env is_msi)))

/-- The header-scan loop at the top of `extract_table_data`: consume
leading rows having at most one non-null cell (merged title rows),
OCR each present cell as a region and accumulate the text (prefixed
by a space, as in `header_text += " " + text`); stop at the first row
with more than one non-null cell.  Returns the accumulated header
text and the remaining rows (the rows from `data_start_idx` on). -/
def scan_header_rows (env : OcrEnv) :
    String → List (List (Option Cell)) → String × List (List (Option Cell))
  | header_text, [] => (header_text, [])
  | header_text, row :: rest =>
    let non_none := row.filterMap id
    if non_none.length ≤ 1 then
      match non_none with
      | [] => scan_header_rows env header_text rest
      | c :: _ => scan_header_rows env (header_text ++ " " ++ env.ocr_region c) rest
    else (header_text, row :: rest)

/-- `extract_table_data(page_img, table, page_index)`: classify the
table from its merged header rows and assemble its data rows.
Returns `(category, card_type, data_rows)`; `(none, none, [])` for an
empty table, `(some "continuation", none, [])` when the header is
unclassifiable. -/
def extract_table_data (env : OcrEnv) (table : List (List (Option Cell))) :
    Option String × Option String × List (List String) :=
  if table.isEmpty then (none, none, [])
  else if (classify_table (scan_header_rows env "" table).1).1 = "unknown" then
    (some "continuation", none, [])
  else
    (some (classify_table (scan_header_rows env "" table).1).1,
     some (classify_table (scan_header_rows env "" table).1).2,
     (scan_header_rows env "" table).2.filterMap
       (assemble_data_row env ((classify_table (scan_header_rows env "" table).1).1 == "msi")
         (if (classify_table (scan_header_rows env "" table).1).1 == "msi" then 7 else 5)))

/-- `extract_continuation_table(page_img, table)`: assemble the rows
of a headerless continuation table.  The narrow-cell sign detection
has no category guard here, and the column count is fixed at 5. -/
def extract_continuation_table (env : OcrEnv) (table : List (List (Option Cell))) :
    List (List String) :=
  table.filterMap (fun row =>
    if nonNoneCount row < 3 then none
    else if is_header_row (row.map (cont_cell_text env)) ||
        is_total_row (row.map (cont_cell_text env)) then none
    else if (row.map (cont_cell_text env)).all (fun s => decide (s = "")) then none
    else some (normalizeCols 5 (row.map (cont_cell_text env))))

/-- The `(last_category, last_card_type)` state threaded through the
table loop of `process_pdf`.  `last_category = none` models the
initial Python `None`. -/
structure ExtractionState where
  last_category : Option String
  last_card_type : Option String
deriving DecidableEq

/-- The state before any table is processed:
`last_category = None; last_card_type = "titular"`. -/
def initialState : ExtractionState :=
  { last_category := none, last_card_type := some "titular" }

/-- The four per-sheet row accumulators (`tables_data`). -/
structure TablesData where
  msiTitular : List (List String)
  msiAdicional : List (List String)
  noMesesTitular : List (List String)
  noMesesAdicional : List (List String)
deriving DecidableEq

/-- The empty `tables_data` mapping. -/
def emptyTables : TablesData :=
  { msiTitular := [], msiAdicional := [], noMesesTitular := [], noMesesAdicional := [] }

/-- The tail of the table-loop body of `process_pdf` after
continuation resolution: skip when `data_rows` is empty, deposit the
rows on the sheet selected by category and card type, and update the
state — or skip entirely on any other category. -/
def record_table (st : ExtractionState) (td : TablesData)
    (category card_type : Option String) (data_rows : List (List String)) :
    ExtractionState × TablesData :=
  if data_rows.isEmpty then (st, td)
  else if category = some "msi" then
    if card_type = some "adicional" then
      ({ last_category := category, last_card_type := card_type },
       { td with msiAdicional := td.msiAdicional ++ data_rows })
    else
      ({ last_category := category, last_card_type := card_type },
       { td with msiTitular := td.msiTitular ++ data_rows })
  else if category = some "regular" then
    if card_type = some "adicional" then
      ({ last_category := category, last_card_type := card_type },
       { td with noMesesAdicional := td.noMesesAdicional ++ data_rows })
    else
      ({ last_category := category, last_card_type := card_type },
       { td with noMesesTitular := td.noMesesTitular ++ data_rows })
  else (st, td)

/-- One iteration of the table loop of `process_pdf`: extract and
classify; on `"continuation"`, re-extract with the continuation rules
and inherit `(last_category, last_card_type)` when rows were found
and a prior classified table exists (`if data_rows and last_category:`),
otherwise skip; then record the rows and update the state. -/
def process_table_step (env : OcrEnv) (st : ExtractionState) (td : TablesData)
    (table : List (List (Option Cell))) : ExtractionState × TablesData :=
  if (extract_table_data env table).1 = some "continuation" then
    if (extract_continuation_table env table).isEmpty = false ∧ st.last_category.isSome = true then
      record_table st td st.last_category st.last_card_type (extract_continuation_table env table)
    else (st, td)
  else
    record_table st td (extract_table_data env table).1
      (extract_table_data env table).2.1 (extract_table_data env table).2.2

/-- The whole table loop of `process_pdf` over the document's tables
in page order, from the initial state and empty accumulators. -/
def process_tables (env : OcrEnv) (tables : List (List (List (Option Cell)))) :
    ExtractionState × TablesData :=
  tables.foldl (fun acc t => process_table_step env acc.1 acc.2 t)
    (initialState, emptyTables)

/- ## Concrete fixtures used by witnesses and counterexamples -/

/-- An OCR environment whose region OCR reads a regular-table header
and whose cell OCR reads a plain data token. -/
def envDato : OcrEnv :=
  { ocr_cell := fun _ => "dato"
    ocr_region := fun _ => "NO A MESES"
    detect_sign := fun _ => "-" }

/-- An OCR environment whose cell OCR reads an amount, distinct from
the sign detector's output. -/
def envNum : OcrEnv :=
  { ocr_cell := fun _ => "9.99"
    ocr_region := fun _ => ""
    detect_sign := fun _ => "-" }

/-- A wide cell (width 100 ≥ 20). -/
def cellWide : Cell := { x0 := 0, top := 0, x1 := 100, bottom := 10 }

/-- A narrow cell (width 10 < 20). -/
def cellNarrow : Cell := { x0 := 0, top := 0, x1 := 10, bottom := 10 }

/-- State after an MSI/titular table has been classified. -/
def stMsiTitular : ExtractionState := { last_category := some "msi", last_card_type := some "titular" }

/-- State after an MSI/adicional table has been classified. -/
def stMsiAdicional : ExtractionState := { last_category := some "msi", last_card_type := some "adicional" }

/-- A headerless table (its first row has three non-null cells, so
classification sees empty header text): one data row with a narrow
first cell. -/
def contTable : List (List (Option Cell)) := [[some cellNarrow, some cellWide, some cellWide]]

/-- A table that consists of a single merged header row and nothing
else: it classifies but yields no data rows. -/
def headerOnlyTable : List (List (Option Cell)) := [[some cellWide]]

/-- A classifiable table with one header row and one data row of
three wide cells. -/
def classifiedTable : List (List (Option Cell)) :=
  [[some cellWide], [some cellWide, some cellWide, some cellWide]]

/-- An all-bright 10×10 grayscale cell (no dark pixel). -/
def gridBright : List (List Nat) := List.replicate 10 (List.replicate 10 255)

/- ## Claim theorems -/

/-- C5: `clean_date` satisfies the four specified equalities —
border-bleed characters are stripped, a digit followed by `f` before
a month token becomes digit `7`, the trailing digit of a three-digit
day is dropped, and a single-digit day (with a year present) is
zero-padded. -/
theorem clean_date_spec_examples :
    clean_date "[17-Ene-2026 |" = "17-Ene-2026" ∧
    clean_date "2f-Ene-2026" = "27-Ene-2026" ∧
    clean_date "298-Ene-2026" = "29-Ene-2026" ∧
    clean_date "2-Ene-2026" = "02-Ene-2026" := by
  exact ⟨by decide, by decide, by decide, by decide⟩

/-- The MSI marker of `classify_table`: the upper-cased header
contains `MESES SIN INTERESES` or `DIFERIDOS`. -/
def hasMsiMarker (s : String) : Bool :=
  pyContains (s.data.map pyUpperChar) "MESES SIN INTERESES".data ||
    pyContains (s.data.map pyUpperChar) "DIFERIDOS".data

/-- The regular marker of `classify_table`: the upper-cased header
contains `NO A MESES` or `REGULARES`. -/
def hasRegularMarker (s : String) : Bool :=
  pyContains (s.data.map pyUpperChar) "NO A MESES".data ||
    pyContains (s.data.map pyUpperChar) "REGULARES".data

/-- The card-type marker of `classify_table`: the upper-cased header
contains `ADICIONAL`. -/
def hasAdicionalMarker (s : String) : Bool :=
  pyContains (s.data.map pyUpperChar) "ADICIONAL".data

/-- C10: `classify_table` resolves the category by fixed precedence —
`"msi"` exactly when an MSI marker occurs (even when a regular marker
also occurs), `"regular"` exactly when no MSI marker but a regular
marker occurs, `"unknown"` otherwise — and the card type is computed
independently of the category, `"adicional"` exactly when `ADICIONAL`
occurs and `"titular"` otherwise. -/
theorem classify_table_precedence (s : String) :
    ((classify_table s).1 = "msi" ↔ hasMsiMarker s = true) ∧
    ((classify_table s).1 = "regular" ↔ (hasMsiMarker s = false ∧ hasRegularMarker s = true)) ∧
    ((classify_table s).1 = "unknown" ↔ (hasMsiMarker s = false ∧ hasRegularMarker s = false)) ∧
    (classify_table s).2 = (if hasAdicionalMarker s = true then "adicional" else "titular") := by
  have h1 : (classify_table s).1 =
      (if hasMsiMarker s = true then "msi"
       else if hasRegularMarker s = true then "regular" else "unknown") := rfl
  have h2 : (classify_table s).2 =
      (if hasAdicionalMarker s = true then "adicional" else "titular") := rfl
  rw [h1, h2]
  cases hM : hasMsiMarker s <;> cases hR : hasRegularMarker s <;> simp

/-- C4 (amended): when the full `DD-Month-YYYY` extraction succeeds,
a single remaining day digit is zero-padded and the month is
capitalized; when only the `DD-Month` fallback succeeds, the month is
capitalized but the day is returned exactly as matched, without
zero-padding. -/
theorem clean_date_format (raw : String) :
    (∀ d m y, searchFull (dateCorrected raw) = some (d, m, y) → d.length = 1 →
        clean_date raw = (('0' :: d) ++ '-' :: (pyCapitalize m ++ '-' :: y)).asString) ∧
    (∀ d m y, searchFull (dateCorrected raw) = some (d, m, y) → d.length ≠ 1 →
        clean_date raw = (d ++ '-' :: (pyCapitalize m ++ '-' :: y)).asString) ∧
    (∀ d m, searchFull (dateCorrected raw) = none → searchDM (dateCorrected raw) = some (d, m) →
        clean_date raw = (d ++ '-' :: pyCapitalize m).asString) := by
  by_cases hraw : raw = ""
  · subst hraw
    refine ⟨?_, ?_, ?_⟩
    · intro d m y hf _
      rw [show dateCorrected "" = [] from rfl] at hf
      simp [searchFull] at hf
    · intro d m y hf _
      rw [show dateCorrected "" = [] from rfl] at hf
      simp [searchFull] at hf
    · intro d m _ hdm
      rw [show dateCorrected "" = [] from rfl] at hdm
      simp [searchDM] at hdm
  · refine ⟨?_, ?_, ?_⟩
    · intro d m y hf h1
      unfold clean_date
      rw [if_neg hraw, hf]
      simp [h1]
    · intro d m y hf h1
      unfold clean_date
      rw [if_neg hraw, hf]
      simp [h1]
    · intro d m hf hdm
      unfold clean_date
      rw [if_neg hraw, hf, hdm]

/-- Witness for C4's theorem at `"2-Ene-2026"`. -/
theorem clean_date_format_witness :
    clean_date "2-Ene-2026" =
      (('0' :: ['2']) ++ '-' :: (pyCapitalize ['E', 'n', 'e'] ++ '-' :: ['2', '0', '2', '6'])).asString :=
  (clean_date_format "2-Ene-2026").1 ['2'] ['E', 'n', 'e'] ['2', '0', '2', '6']
    (by decide) (by decide)

/-- C4 counterexample: on `"2-Ene"` the fallback extraction succeeds
(the month is even re-capitalized), yet the single day digit is not
zero-padded — the claim's padding promise fails for the fallback
branch. -/
theorem clean_date_fallback_unpadded_cex :
    searchFull (dateCorrected "2-Ene") = none ∧
    searchDM (dateCorrected "2-Ene") = some (['2'], ['E', 'n', 'e']) ∧
    clean_date "2-Ene" = "2-Ene" ∧
    clean_date "2-Ene" ≠ "02-Ene" := by
  exact ⟨by decide, by decide, by decide, by decide⟩

/-- Dropping leading digits of an all-digit chunk reaches the tail,
provided the tail does not itself start with digits to drop. -/
theorem dropWhile_digit_append (d dp : List Char)
    (hdig : ∀ c ∈ d, c.isDigit = true)
    (hdp : List.dropWhile Char.isDigit dp = dp) :
    List.dropWhile Char.isDigit (d ++ dp) = dp := by
  induction d with
  | nil => simpa using hdp
  | cons c cs ih =>
    have hc : c.isDigit = true := hdig c (List.mem_cons_self c cs)
    rw [List.cons_append, List.dropWhile_cons_of_pos hc]
    exact ih (fun x hx => hdig x (List.mem_cons_of_mem c hx))

/-- A nonempty all-digit chunk followed by an optional dot-and-digits
tail is a numeric-token core. -/
theorem isNumCore_append (d dp : List Char) (hd : d ≠ [])
    (hdig : ∀ c ∈ d, c.isDigit = true)
    (hdp : dp = [] ∨ ∃ r, dp = '.' :: r ∧ r.all Char.isDigit = true) :
    isNumCore (d ++ dp) = true := by
  have hdw : List.dropWhile Char.isDigit dp = dp := by
    rcases hdp with rfl | ⟨r, rfl, _⟩
    · rfl
    · rw [List.dropWhile_cons_of_neg]
      decide
  cases d with
  | nil => exact absurd rfl hd
  | cons c cs =>
    have hc : c.isDigit = true := hdig c (List.mem_cons_self c cs)
    unfold isNumCore
    rw [List.cons_append, List.takeWhile_cons_of_pos hc, List.dropWhile_cons_of_pos hc]
    rw [dropWhile_digit_append cs dp (fun x hx => hdig x (List.mem_cons_of_mem c hx)) hdw]
    rcases hdp with rfl | ⟨r, rfl, hr⟩
    · simp
    · simpa using hr

/-- The dot tail produced by `dotPart` is empty or a dot followed by
digits only. -/
theorem dotPart_cases (r : List Char) :
    dotPart r = [] ∨ ∃ s, dotPart r = '.' :: s ∧ s.all Char.isDigit = true := by
  unfold dotPart
  split
  · right
    refine ⟨_, rfl, ?_⟩
    exact List.all_eq_true.2 (fun c hc => List.mem_takeWhile_imp hc)
  · left
    rfl

/-- Every token produced by an anchored numeric match is a
signed-decimal numeric token. -/
theorem matchNumAt_isNumToken (l t : List Char) (h : matchNumAt l = some t) :
    isNumToken t = true := by
  unfold matchNumAt at h
  split at h
  · rename_i rest
    split at h
    · exact absurd h (by simp)
    · rename_i hne
      have hd : rest.takeWhile Char.isDigit ≠ [] := by
        simpa [List.isEmpty_iff] using hne
      have hcore : isNumCore (rest.takeWhile Char.isDigit ++
          dotPart (rest.dropWhile Char.isDigit)) = true :=
        isNumCore_append _ _ hd (fun c hc => List.mem_takeWhile_imp hc)
          (dotPart_cases _)
      cases h
      simpa [isNumToken] using hcore
  · split at h
    · exact absurd h (by simp)
    · rename_i hmain hne
      have hd : l.takeWhile Char.isDigit ≠ [] := by
        simpa [List.isEmpty_iff] using hne
      have hcore : isNumCore (l.takeWhile Char.isDigit ++
          dotPart (l.dropWhile Char.isDigit)) = true :=
        isNumCore_append _ _ hd (fun c hc => List.mem_takeWhile_imp hc)
          (dotPart_cases _)
      cases h
      rcases hk : l.takeWhile Char.isDigit with _ | ⟨k, ks⟩
      · exact absurd hk hd
      · have hkd : k.isDigit = true :=
          List.mem_takeWhile_imp (by rw [hk]; exact List.mem_cons_self k ks)
        have hkne : k ≠ '-' := by
          intro hke
          rw [hke] at hkd
          exact absurd hkd (by decide)
        rw [hk] at hcore
        unfold isNumToken
        split
        · rename_i rest heq
          rw [List.cons_append, List.cons.injEq] at heq
          exact absurd heq.1 hkne
        · exact hcore

/-- Every token found by the numeric-token search is a signed-decimal
numeric token. -/
theorem searchNum_isNumToken (l t : List Char) (h : searchNum l = some t) :
    isNumToken t = true := by
  induction l with
  | nil => simp [searchNum] at h
  | cons c rest ih =>
    unfold searchNum at h
    split at h
    · rename_i t' heq
      cases h
      exact matchNumAt_isNumToken _ _ heq
    · exact ih h

/-- C6: `clean_amount` removes the currency symbol, commas and spaces,
maps `O`/`o` to `0`, returns the first signed-decimal numeric token of
the sanitized string, and falls back to the sanitized string unchanged
when no such token exists (it is a total function and never raises);
in particular the two specified equalities hold. -/
theorem clean_amount_spec (raw : String) :
    clean_amount "$21,098.00" = "21098.00" ∧
    clean_amount "2O.50" = "20.50" ∧
    (∀ t, searchNum (amountSanitized raw) = some t →
        clean_amount raw = t.asString ∧ isNumToken t = true) ∧
    (searchNum (amountSanitized raw) = none →
        clean_amount raw = (amountSanitized raw).asString) := by
  refine ⟨by decide, by decide, ?_, ?_⟩
  · intro t ht
    refine ⟨?_, searchNum_isNumToken _ _ ht⟩
    by_cases hraw : raw = ""
    · subst hraw
      rw [show amountSanitized "" = [] from rfl] at ht
      simp [searchNum] at ht
    · unfold clean_amount
      rw [if_neg hraw, ht]
  · intro hn
    by_cases hraw : raw = ""
    · subst hraw
      decide
    · unfold clean_amount
      rw [if_neg hraw, hn]

/-- Witness for C6's theorem at `"2O.50"`. -/
theorem clean_amount_spec_witness :
    clean_amount "2O.50" = (['2', '0', '.', '5', '0']).asString ∧
    isNumToken ['2', '0', '.', '5', '0'] = true :=
  (clean_amount_spec "2O.50").2.2.1 ['2', '0', '.', '5', '0'] (by decide)

/-- Height of the inner crop: the full height minus both margins. -/
theorem gridH_innerCrop (g : List (List Nat)) :
    gridH (innerCrop g) = gridH g - 2 * (gridH g / 5) := by
  unfold innerCrop gridH
  simp only [List.length_map, List.length_take, List.length_drop]
  omega

/-- Width of the inner crop of a rectangular grid with enough rows:
the full width minus both margins. -/
theorem gridW_innerCrop (g : List (List Nat))
    (hrect : ∀ row ∈ g, row.length = gridW g)
    (hpos : 0 < gridH g - 2 * (gridH g / 5)) :
    gridW (innerCrop g) = gridW g - 2 * (gridW g / 5) := by
  have hlen : ((g.drop (gridH g / 5)).take (gridH g - 2 * (gridH g / 5))).length =
      gridH g - 2 * (gridH g / 5) := by
    simp only [List.length_take, List.length_drop, gridH]
    omega
  rcases hl : (g.drop (gridH g / 5)).take (gridH g - 2 * (gridH g / 5)) with _ | ⟨r, t⟩
  · rw [hl] at hlen
    simp at hlen
    omega
  · have hr : r ∈ g := by
      have hmem : r ∈ (g.drop (gridH g / 5)).take (gridH g - 2 * (gridH g / 5)) := by
        rw [hl]
        exact List.mem_cons_self r t
      exact List.mem_of_mem_drop (List.mem_of_mem_take hmem)
    have hrl : r.length = gridW g := hrect r hr
    have hshow : innerCrop g = (r :: t).map
        (fun row => (row.drop (gridW g / 5)).take (gridW g - 2 * (gridW g / 5))) := by
      unfold innerCrop
      rw [hl]
    rw [hshow]
    show ((r.drop (gridW g / 5)).take (gridW g - 2 * (gridW g / 5))).length = _
    simp only [List.length_take, List.length_drop]
    omega

/-- C7: for a rectangular cell bitmap whose inner 60% crop is analysed
(full size at least 6×6, hence inner size at least 3 in each
dimension), with dark pixels those of intensity strictly below 100:
fewer than 2 dark pixels yield `"+"`; otherwise the result is `"-"`
exactly when the fraction of inner rows containing a dark pixel is
below 0.40, and `"+"` exactly otherwise; a degenerate bitmap (width
or height below 6) defaults to `"+"`. -/
theorem detect_sign_cell_spec (g : List (List Nat))
    (hrect : ∀ row ∈ g, row.length = gridW g) :
    ((gridW g < 6 ∨ gridH g < 6) → detect_sign_cell g = "+") ∧
    (6 ≤ gridW g → 6 ≤ gridH g →
      (3 ≤ gridW (innerCrop g) ∧ 3 ≤ gridH (innerCrop g)) ∧
      (darkCount (innerCrop g) < 2 → detect_sign_cell g = "+") ∧
      (2 ≤ darkCount (innerCrop g) →
        ((detect_sign_cell g = "-") ↔
          (darkRowCount (innerCrop g) : ℚ) / (gridH (innerCrop g) : ℚ) < 40 / 100) ∧
        ((detect_sign_cell g = "+") ↔
          ¬ ((darkRowCount (innerCrop g) : ℚ) / (gridH (innerCrop g) : ℚ) < 40 / 100)))) := by
  constructor
  · intro hsmall
    unfold detect_sign_cell
    rw [if_pos hsmall]
  · intro hw hh
    have hih : gridH (innerCrop g) = gridH g - 2 * (gridH g / 5) := gridH_innerCrop g
    have hih4 : 4 ≤ gridH (innerCrop g) := by
      rw [hih]
      omega
    have hiw : gridW (innerCrop g) = gridW g - 2 * (gridW g / 5) := by
      refine gridW_innerCrop g hrect ?_
      omega
    have hiw4 : 4 ≤ gridW (innerCrop g) := by
      rw [hiw]
      omega
    have hihq : (0 : ℚ) < (gridH (innerCrop g) : ℚ) := by
      exact_mod_cast Nat.lt_of_lt_of_le (by norm_num) hih4
    have hkey : ((darkRowCount (innerCrop g) : ℚ) / (gridH (innerCrop g) : ℚ) < 40 / 100) ↔
        5 * darkRowCount (innerCrop g) < 2 * gridH (innerCrop g) := by
      rw [div_lt_div_iff₀ hihq (by norm_num)]
      constructor
      · intro hq
        have hn : darkRowCount (innerCrop g) * 100 < 40 * gridH (innerCrop g) := by
          exact_mod_cast hq
        omega
      · intro hn
        have hq : darkRowCount (innerCrop g) * 100 < 40 * gridH (innerCrop g) := by
          omega
        exact_mod_cast hq
    refine ⟨⟨by omega, by omega⟩, ?_, ?_⟩
    · intro hdark
      unfold detect_sign_cell
      rw [if_neg (by omega), if_neg (by omega), if_pos hdark]
    · intro hdark
      unfold detect_sign_cell
      rw [if_neg (by omega), if_neg (by omega), if_neg (by omega)]
      by_cases hc : 5 * darkRowCount (innerCrop g) < 2 * gridH (innerCrop g)
      · rw [if_pos hc]
        refine ⟨⟨fun _ => hkey.2 hc, fun _ => rfl⟩, ?_, ?_⟩
        · intro hplus
          exact absurd hplus (by decide)
        · intro hnot
          exact absurd (hkey.2 hc) hnot
      · rw [if_neg hc]
        refine ⟨⟨?_, ?_⟩, fun _ hq => hc (hkey.1 hq), fun _ => rfl⟩
        · intro hminus
          exact absurd hminus (by decide)
        · intro hq
          exact absurd (hkey.1 hq) hc

/-- Witness for C7's theorem at an all-bright 10×10 cell (fewer than
2 dark pixels). -/
theorem detect_sign_cell_spec_witness : detect_sign_cell gridBright = "+" :=
  (((detect_sign_cell_spec gridBright (by decide)).2 (by decide) (by decide)).2.1 (by decide))

/-- C8: a row that reaches assembly (at least 3 non-null cells) is
discarded exactly when the assembled raw row matches header-row
detection, or total-row detection, or has every field empty; every
other such row is kept, normalised to the expected column count. -/
theorem assemble_data_row_filter (env : OcrEnv) (is_msi : Bool) (expected : Nat)
    (row : List (Option Cell)) (h3 : 3 ≤ nonNoneCount row) :
    (assemble_data_row env is_msi expected row = none ↔
      (is_header_row (row.map (cell_text env is_msi)) = true ∨
       is_total_row (row.map (cell_text env is_msi)) = true ∨
       ∀ s ∈ row.map (cell_text env is_msi), s = "")) ∧
    (∀ out, assemble_data_row env is_msi expected row = some out →
        out = normalizeCols expected (row.map (cell_text env is_msi))) := by
  have hlt : ¬ nonNoneCount row < 3 := by omega
  constructor
  · unfold assemble_data_row
    rw [if_neg hlt]
    by_cases h1 : is_header_row (row.map (cell_text env is_msi)) ||
        is_total_row (row.map (cell_text env is_msi))
    · rw [if_pos h1]
      simp only [Bool.or_eq_true] at h1
      exact ⟨fun _ => h1.imp id Or.inl, fun _ => rfl⟩
    · rw [if_neg h1]
      simp only [Bool.or_eq_true, not_or] at h1
      by_cases h2 : (row.map (cell_text env is_msi)).all (fun s => decide (s = ""))
      · rw [if_pos h2]
        refine ⟨fun _ => Or.inr (Or.inr ?_), fun _ => rfl⟩
        intro s hs
        simpa using List.all_eq_true.1 h2 s hs
      · rw [if_neg h2]
        constructor
        · intro hnone
          exact Option.noConfusion hnone
        · intro hcases
          rcases hcases with h | h | h
          · exact absurd h h1.1
          · exact absurd h h1.2
          · refine absurd ?_ h2
            exact List.all_eq_true.2 (fun s hs => by simpa using h s hs)
  · intro out hout
    unfold assemble_data_row at hout
    rw [if_neg hlt] at hout
    by_cases h1 : is_header_row (row.map (cell_text env is_msi)) ||
        is_total_row (row.map (cell_text env is_msi))
    · rw [if_pos h1] at hout
      exact Option.noConfusion hout
    · rw [if_neg h1] at hout
      by_cases h2 : (row.map (cell_text env is_msi)).all (fun s => decide (s = ""))
      · rw [if_pos h2] at hout
        exact Option.noConfusion hout
      · rw [if_neg h2] at hout
        exact (Option.some.inj hout).symm

/-- Witness for C8's theorem: a surviving three-cell row is kept in
its normalised form. -/
theorem assemble_data_row_filter_witness :
    (["dato", "dato", "dato", "", ""] : List String) =
      normalizeCols 5 ([some cellWide, some cellWide, some cellWide].map (cell_text envDato false)) :=
  (assemble_data_row_filter envDato false 5 [some cellWide, some cellWide, some cellWide]
      (by decide)).2 ["dato", "dato", "dato", "", ""] (by decide)

/-- The normalisation always yields exactly the expected column
count. -/
theorem normalizeCols_length (expected : Nat) (row_data : List String) :
    (normalizeCols expected row_data).length = expected := by
  unfold normalizeCols
  rw [List.length_take, List.length_append, List.length_replicate]
  omega

/-- A kept assembled row has exactly the expected column count. -/
theorem assemble_data_row_length (env : OcrEnv) (is_msi : Bool) (expected : Nat)
    (row : List (Option Cell)) (out : List String)
    (h : assemble_data_row env is_msi expected row = some out) :
    out.length = expected := by
  unfold assemble_data_row at h
  split at h
  · exact Option.noConfusion h
  · split at h
    · exact Option.noConfusion h
    · split at h
      · exact Option.noConfusion h
      · cases Option.some.inj h
        exact normalizeCols_length _ _

/-- C1 (amended): every row assembled by `extract_table_data` for a
successfully classified table has exactly the category's fixed column
count — 7 when the category is msi, 5 when it is regular — while
every row assembled by `extract_continuation_table` has exactly 5
fields, regardless of the category the continuation later inherits
from `ExtractionState`. -/
theorem assembled_row_column_counts (env : OcrEnv) :
    (∀ table cat ct rows, extract_table_data env table = (some cat, some ct, rows) →
        ∀ r ∈ rows, r.length = if cat = "msi" then 7 else 5) ∧
    (∀ table, ∀ r ∈ extract_continuation_table env table, r.length = 5) := by
  constructor
  · intro table cat ct rows hx r hr
    unfold extract_table_data at hx
    split at hx
    · simp at hx
    · split at hx
      · simp at hx
      · rw [Prod.mk.injEq, Prod.mk.injEq] at hx
        obtain ⟨hcat, hct, hrows⟩ := hx
        subst hrows
        obtain ⟨row', hrow', hsome⟩ := List.mem_filterMap.1 hr
        have hlen := assemble_data_row_length _ _ _ _ _ hsome
        have hcat' : (classify_table (scan_header_rows env "" table).1).1 = cat :=
          Option.some.inj hcat
        rw [hcat'] at hlen
        by_cases hm : cat = "msi"
        · simpa [hm, beq_iff_eq] using hlen
        · simpa [hm, beq_iff_eq] using hlen
  · intro table r hr
    unfold extract_continuation_table at hr
    obtain ⟨row, hrow, hsome⟩ := List.mem_filterMap.1 hr
    split at hsome
    · exact Option.noConfusion hsome
    · split at hsome
      · exact Option.noConfusion hsome
      · split at hsome
        · exact Option.noConfusion hsome
        · cases Option.some.inj hsome
          exact normalizeCols_length _ _

/-- Witness for C1's theorem: the assembled row of a classified
regular table has the regular column count. -/
theorem assembled_row_column_counts_witness :
    (["dato", "dato", "dato", "", ""] : List String).length =
      (if "regular" = "msi" then 7 else 5) :=
  (assembled_row_column_counts envDato).1 classifiedTable "regular" "titular"
    [["dato", "dato", "dato", "", ""]] (by decide) ["dato", "dato", "dato", "", ""] (by decide)

/-- C1 counterexample: a continuation table processed while
`ExtractionState` holds `(msi, titular)` deposits a 5-field row in
the MSI dataset — not the 7-field row the claim asserts for msi
continuations. -/
theorem msi_continuation_five_fields_cex :
    (process_table_step envDato stMsiTitular emptyTables contTable).1.last_category = some "msi" ∧
    (process_table_step envDato stMsiTitular emptyTables contTable).2.msiTitular =
      [["-", "dato", "dato", "", ""]] ∧
    (["-", "dato", "dato", "", ""] : List String).length ≠ 7 := by
  exact ⟨by decide, by decide, by decide⟩

/-- C3 (amended): in the classified data-row loop, a non-null cell is
routed to the sign detector exactly when the table is not msi and the
cell's width is below 20 (so msi tables never use it there), while in
the continuation loop the width test alone decides, with no category
guard. -/
theorem sign_detector_routing (env : OcrEnv) (c : Cell) :
    (∀ is_msi : Bool, cell_text env is_msi (some c) =
        if is_msi = false ∧ c.width < 20 then env.detect_sign c else env.ocr_cell c) ∧
    cell_text env true (some c) = env.ocr_cell c ∧
    cont_cell_text env (some c) =
      (if c.width < 20 then env.detect_sign c else env.ocr_cell c) := by
  refine ⟨fun is_msi => rfl, ?_, rfl⟩
  show (if true = false ∧ c.width < 20 then env.detect_sign c else env.ocr_cell c) =
      env.ocr_cell c
  rw [if_neg]
  rintro ⟨h, -⟩
  exact absurd h (by decide)

/-- Witness for C3's theorem: a narrow cell of a regular table reads
through the sign detector. -/
theorem sign_detector_routing_witness :
    cell_text envNum false (some cellNarrow) =
      (if false = false ∧ cellNarrow.width < 20 then envNum.detect_sign cellNarrow
       else envNum.ocr_cell cellNarrow) :=
  (sign_detector_routing envNum cellNarrow).1 false

/-- C3 counterexample: a continuation table inheriting the msi
category still routes its narrow cell through the sign detector — the
deposited MSI row contains the sign detector's output, which differs
from the OCR engine's output on that cell. -/
theorem msi_continuation_sign_detector_cex :
    (process_table_step envNum stMsiTitular emptyTables contTable).1.last_category = some "msi" ∧
    (process_table_step envNum stMsiTitular emptyTables contTable).2.msiTitular =
      [["-", "9.99", "9.99", "", ""]] ∧
    cont_cell_text envNum (some cellNarrow) = envNum.detect_sign cellNarrow ∧
    envNum.detect_sign cellNarrow ≠ envNum.ocr_cell cellNarrow := by
  exact ⟨by decide, by decide, by decide, by decide⟩

/-- C2 (amended): a successfully classified table updates
`ExtractionState` to its `(category, card_type)` exactly when at least
one of its data rows survives filtering; a classified table whose
rows are all filtered away is skipped before the update, leaving both
the state and the accumulated datasets unchanged. -/
theorem classified_table_state_update (env : OcrEnv) (st : ExtractionState) (td : TablesData)
    (table : List (List (Option Cell))) (cat ct : String) (rows : List (List String))
    (hx : extract_table_data env table = (some cat, some ct, rows))
    (hcat : cat = "msi" ∨ cat = "regular") :
    (rows ≠ [] → (process_table_step env st td table).1 =
        { last_category := some cat, last_card_type := some ct }) ∧
    (rows = [] → process_table_step env st td table = (st, td)) := by
  have hnc : ¬ (extract_table_data env table).1 = some "continuation" := by
    rw [hx]
    rcases hcat with rfl | rfl <;> simp
  constructor
  · intro hne
    unfold process_table_step
    rw [if_neg hnc, hx]
    show (record_table st td (some cat) (some ct) rows).1 = _
    unfold record_table
    rw [if_neg (by simpa [List.isEmpty_iff] using hne)]
    rcases hcat with rfl | rfl
    · rw [if_pos rfl]
      by_cases hct : (some ct : Option String) = some "adicional"
      · rw [if_pos hct]
      · rw [if_neg hct]
    · rw [if_neg (by simp), if_pos rfl]
      by_cases hct : (some ct : Option String) = some "adicional"
      · rw [if_pos hct]
      · rw [if_neg hct]
  · intro hem
    subst hem
    unfold process_table_step
    rw [if_neg hnc, hx]
    show record_table st td (some cat) (some ct) [] = _
    unfold record_table
    rw [if_pos (show ([] : List (List String)).isEmpty = true from rfl)]

/-- Witness for C2's theorem: a classified regular table with one
surviving row sets the state to `(regular, titular)`. -/
theorem classified_table_state_update_witness :
    (process_table_step envDato initialState emptyTables classifiedTable).1 =
      { last_category := some "regular", last_card_type := some "titular" } :=
  (classified_table_state_update envDato initialState emptyTables classifiedTable
      "regular" "titular" [["dato", "dato", "dato", "", ""]] (by decide)
      (Or.inr rfl)).1 (by decide)

/-- C2 counterexample: a table whose header classifies successfully
as `(regular, titular)` but whose rows are all filtered away leaves
`ExtractionState` untouched — here it keeps the previous
`(msi, adicional)` instead of becoming `(regular, titular)`. -/
theorem classified_no_rows_no_update_cex :
    extract_table_data envDato headerOnlyTable = (some "regular", some "titular", []) ∧
    process_table_step envDato stMsiAdicional emptyTables headerOnlyTable =
      (stMsiAdicional, emptyTables) ∧
    stMsiAdicional.last_category ≠ some "regular" := by
  exact ⟨by decide, by decide, by decide⟩

/-- C9: when a table's header is unclassifiable (the extraction
reports a continuation) and `ExtractionState` is empty (no prior
classified table), the processing step discards the table entirely —
no dataset receives any of its rows and the state stays unchanged —
without error. -/
theorem unclassifiable_no_context_discard (env : OcrEnv) (st : ExtractionState)
    (td : TablesData) (table : List (List (Option Cell)))
    (hcont : (extract_table_data env table).1 = some "continuation")
    (hempty : st.last_category = none) :
    process_table_step env st td table = (st, td) := by
  unfold process_table_step
  rw [if_pos hcont, if_neg]
  rintro ⟨-, hsome⟩
  rw [hempty] at hsome
  exact absurd hsome (by decide)

/-- Witness for C9's theorem: a headerless table at the initial
(empty) state is discarded. -/
theorem unclassifiable_no_context_discard_witness :
    process_table_step envDato initialState emptyTables contTable =
      (initialState, emptyTables) :=
  unclassifiable_no_context_discard envDato initialState emptyTables contTable
    (by decide) (by decide)
